import Mathlib

/-!
Shallow embedding of the BT-Phonebook-Lookup pipeline
(src/parser.py, src/indexer.py, src/scraper.py, src/app.py)
and proofs about its segmentation, persistence, crawling and search behaviour.

Machine-level conventions: Python strings are Lean `String`s (lists of
characters); Python `None` is `Option.none`; SQL rows are Lean structures;
the Postgres table is a `List` of rows in insertion order.
-/

namespace BT

/-! ### Python string primitives used by the repository -/

/-- Whitespace in the sense of Python `str.strip()` and of the regex class
`\s` on `str` patterns: ASCII whitespace, the C0/C1 separators and the common
Unicode space characters (written by codepoint). -/
def isPyWhitespace (c : Char) : Bool :=
  c = ' ' || c = '\t' || c = '\n' || c = '\x0b' || c = '\x0c' || c = '\x0d' ||
  c = '\x1c' || c = '\x1d' || c = '\x1e' || c = '\x1f' || c = '\x85' ||
  c = '\xa0' || c.toNat == 0x1680 ||
  (decide (0x2000 ≤ c.toNat) && decide (c.toNat ≤ 0x200a)) ||
  c.toNat == 0x2028 || c.toNat == 0x2029 || c.toNat == 0x202f ||
  c.toNat == 0x205f || c.toNat == 0x3000

/-- Single-character line terminators of Python `str.splitlines()`
(the pair CR LF is handled separately as one break). -/
def isLineBreak (c : Char) : Bool :=
  c = '\n' || c = '\x0b' || c = '\x0c' || c = '\x0d' ||
  c = '\x1c' || c = '\x1d' || c = '\x1e' || c = '\x85' ||
  c.toNat == 0x2028 || c.toNat == 0x2029

/-- Worker for `splitLines`: `acc` holds the characters of the current line in
reverse. A trailing line without a final terminator is still emitted; a
terminator at end of input does not produce a trailing empty line, exactly as
Python `str.splitlines()` behaves. -/
def splitlinesAux : List Char → List Char → List (List Char)
  | [], acc => if acc.isEmpty then [] else [acc.reverse]
  | '\x0d' :: '\n' :: rest, acc => acc.reverse :: splitlinesAux rest []
  | ['\x0d'], acc => [acc.reverse]
  | '\x0d' :: c :: rest, acc => acc.reverse :: splitlinesAux (c :: rest) []
  | c :: rest, acc =>
    if isLineBreak c then
      acc.reverse :: splitlinesAux rest []
    else
      splitlinesAux rest (c :: acc)

/-- Python `text.splitlines()`. -/
def splitLines (s : String) : List String :=
  (splitlinesAux s.data []).map String.mk

/-- Python `s.strip()`: remove leading and trailing whitespace. -/
def pyStrip (s : String) : String :=
  String.mk (((s.data.dropWhile isPyWhitespace).reverse.dropWhile isPyWhitespace).reverse)

/-! ### The Segmenter (function `parse_records` of src/parser.py) -/

/-- Match of the regex `\(\d+\)\s*\d+` anchored at the head of the character
list: an opening parenthesis, one or more digits, a closing parenthesis,
optional whitespace, then at least one digit. (`\d` is modelled as an ASCII
digit; the inputs of interest are ASCII.) -/
def phoneMatchAt : List Char → Bool
  | '(' :: rest =>
    match rest.takeWhile Char.isDigit, rest.dropWhile Char.isDigit with
    | [], _ => false
    | _ :: _, ')' :: r2 =>
      match r2.dropWhile isPyWhitespace with
      | c :: _ => c.isDigit
      | [] => false
    | _ :: _, _ => false
  | _ => false

/-- Unanchored search for `\(\d+\)\s*\d+`, as `phone_pattern.search(line)`
does: try a match at every start position. -/
def containsPhoneChars : List Char → Bool
  | [] => false
  | c :: rest => phoneMatchAt (c :: rest) || containsPhoneChars rest

/-- The test `phone_pattern.search(line)` of src/parser.py is not `None`. -/
def containsPhone (s : String) : Bool :=
  containsPhoneChars s.data

/-- One iteration of the line loop of `parse_records` (src/parser.py
lines 64-79): strip the line, skip it when empty, append it to the
accumulating record (space-joined), and close the record when the stripped
line matches the phone pattern. The state is (emitted records, accumulator). -/
def stepLine (st : List String × String) (raw : String) : List String × String :=
  let line := pyStrip raw
  if line = "" then st
  else
    let cur := if st.2 = "" then line else st.2 ++ " " ++ line
    if containsPhone line then (st.1 ++ [cur], "") else (st.1, cur)

/-- The whole line loop of `parse_records`, before the final flush. -/
def processLines (text : String) : List String × String :=
  (splitLines text).foldl stepLine ([], "")

/-- Function `parse_records` of src/parser.py: segment raw text into record
blobs, flushing a non-empty trailing accumulator as a final blob. -/
def parse_records (text : String) : List String :=
  let st := processLines text
  if st.2 = "" then st.1 else st.1 ++ [st.2]

/-! ### The Store (src/indexer.py) -/

/-- A parsed record as handed to `upsert_records` (a Python dict produced by
`records_from_pdf_bytes`); every field may be missing (`r.get(...)` then
yields `None`). -/
structure PRecord where
  name : Option String := none
  address : Option String := none
  phone : Option String := none
  page : Option Nat := none
  raw_text : Option String := none
deriving DecidableEq

/-- A row of the `records` table of SCHEMA_SQL (src/indexer.py), without the
surrogate `id` and the derived `fts` column. -/
structure Row where
  name : Option String
  address : Option String
  phone : Option String
  source_url : String
  page : Option Nat
  raw_text : String
deriving DecidableEq

/-- Python `(x or None)` on an optional string: the empty string is falsy and
becomes `None`. -/
def orNoneStr : Option String → Option String
  | some s => if s = "" then none else some s
  | none => none

/-- Python `(x or None)` on an optional integer: zero is falsy and becomes
`None`. -/
def orNoneNat : Option Nat → Option Nat
  | some n => if n = 0 then none else some n
  | none => none

/-- The tuple built for one record in the `values` loop of `upsert_records`
(src/indexer.py lines 112-120). -/
def toValue (source_url : String) (r : PRecord) : Row :=
  { name := orNoneStr r.name
    address := orNoneStr r.address
    phone := orNoneStr r.phone
    source_url := source_url
    page := orNoneNat r.page
    raw_text := r.raw_text.getD "" }

/-- SQL `coalesce(x, '')`. -/
def coalesce (o : Option String) : String := o.getD ""

/-- The argument of `md5(...)` in the unique index `uniq_record_idx` of
SCHEMA_SQL: `coalesce(name,'') || '|' || coalesce(address,'') || '|' ||
coalesce(source_url,'')`. The hash `md5` is modelled as an injective
function, so conflict detection compares these inputs directly. -/
def hashInput (r : Row) : String :=
  coalesce r.name ++ "|" ++ coalesce r.address ++ "|" ++ r.source_url

/-- Conflict of two rows under the unique index on
`(phone, md5(name-address-source))`. Postgres unique indexes treat NULL as
distinct from NULL, so a row with a NULL phone never conflicts with any row,
not even an identical one. -/
def rowConflict (a b : Row) : Bool :=
  (match a.phone, b.phone with
   | some p, some q => p == q
   | _, _ => false) && (hashInput a == hashInput b)

/-- Effect on the table of inserting one tuple with
`ON CONFLICT ON CONSTRAINT uniq_record DO NOTHING`: the row is dropped when it
conflicts with a row already present (including rows inserted earlier in the
same statement), otherwise appended. -/
def insertRow (store : List Row) (v : Row) : List Row :=
  if store.any (fun r => rowConflict v r) then store else store ++ [v]

/-- Function `upsert_records` of src/indexer.py: build the `values` tuples,
run the multi-row `INSERT ... ON CONFLICT DO NOTHING`, and return
`len(values)`. Result: (table after the insert, returned count). -/
def upsert_records (store : List Row) (rows : List PRecord) (source_url : String) :
    List Row × Nat :=
  if rows.isEmpty then (store, 0)
  else
    let values := rows.map (toValue source_url)
    (values.foldl insertRow store, values.length)

/-- The body of the per-URL loop of `build_index` (src/indexer.py lines
144-155). `fetchParse` abstracts `fetch_pdf` plus `records_from_pdf_bytes`
(network and PDF library); an exception anywhere in the `try` block is the
`error` case, which leaves the state untouched (the error is only logged) and
the loop moves on. State: (table, `total_inserted`). -/
def buildStep (fetchParse : String → Except String (List PRecord))
    (st : List Row × Nat) (url : String) : List Row × Nat :=
  match fetchParse url with
  | Except.error _ => st
  | Except.ok rows =>
    let r := upsert_records st.1 rows url
    (r.1, st.2 + r.2)

/-- The per-URL loop of `build_index` of src/indexer.py, run over the given
URL list against the given initial table, starting with `total_inserted = 0`.
(Schema creation and loading of the URL list precede the loop and are outside
this model.) -/
def build_index (fetchParse : String → Except String (List PRecord))
    (store : List Row) (urls : List String) : List Row × Nat :=
  urls.foldl (buildStep fetchParse) (store, 0)

/-! ### The scraper (src/scraper.py) -/

/-- Python `href.lower().endswith(".pdf")` (ASCII lowering; hrefs of interest
are ASCII). -/
def endsWithPdf (href : String) : Bool :=
  ".pdf".data.isSuffixOf (href.data.map Char.toLower)

/-- Split a URL at the first `://`, returning (prefix including the
separator, remainder). `none` when no `://` occurs. -/
def splitAtSchemeSep : List Char → Option (List Char × List Char)
  | [] => none
  | ':' :: '/' :: '/' :: rest => some ([':', '/', '/'], rest)
  | c :: rest =>
    (splitAtSchemeSep rest).map (fun p => (c :: p.1, p.2))

/-- Host component of an absolute URL (text between `://` and the next `/`,
`?` or `#`, with any `:port` removed). -/
def hostOf (u : String) : String :=
  match splitAtSchemeSep u.data with
  | some (_, rest) =>
    String.mk ((rest.takeWhile (fun c => c != '/' && c != '?' && c != '#')).takeWhile
      (fun c => c != ':'))
  | none => ""

/-- Modelled from `urllib.parse.urljoin` as used by src/scraper.py, restricted
to the shapes that occur: an href with its own scheme replaces the base; a
scheme-relative `//...` href keeps the base scheme; a root-relative `/...`
href keeps the base origin; any other href replaces the last path segment of
the base. -/
def urljoin (base url : String) : String :=
  if (splitAtSchemeSep url.data).isSome then url
  else
    match url.data with
    | '/' :: '/' :: _ =>
      (match splitAtSchemeSep base.data with
       | some (pre, _) => String.mk (pre.dropLast.dropLast) ++ url
       | none => url)
    | '/' :: _ =>
      (match splitAtSchemeSep base.data with
       | some (pre, rest) =>
         String.mk (pre ++ rest.takeWhile (fun c => c != '/' && c != '?' && c != '#')) ++ url
       | none => url)
    | _ =>
      String.mk ((base.data.reverse.dropWhile (fun c => c != '/')).reverse) ++ url

/-- Function `extract_pdf_links` of src/scraper.py with the HTML parsing
abstracted away: `hrefs` is the list of `href` attributes of the anchor tags
of the fetched page, in document order. The loop keeps every href ending in
`.pdf` (case-insensitively), resolved against the page URL — there is no
filtering on the resolved host. -/
def extract_pdf_links (pageUrl : String) (hrefs : List String) : List String :=
  (hrefs.filter endsWithPdf).map (urljoin pageUrl)

/-! ### The search endpoint (src/app.py) -/

/-- The `/search` handler of src/app.py: strip the `q` parameter; when the
stripped query is non-empty run the full-text SQL query (abstracted as
`runQuery`), otherwise leave `rows = []`. The boolean records whether the
store was queried. -/
def appSearch (runQuery : String → List Row) (q : String) : List Row × Bool :=
  let t := pyStrip q
  if t = "" then ([], false) else (runQuery t, true)

/-! ### Joining helpers for the segmentation conservation statement -/

/-- Join two strings with one space, treating the empty string as a neutral
element (mirrors `current_record += " " + line` with its emptiness test). -/
def glue (a b : String) : String :=
  if a = "" then b else if b = "" then a else a ++ " " ++ b

/-- Fold of `glue` over a list; on lists of non-empty strings this coincides
with joining on single spaces. -/
def glueAll (L : List String) : String :=
  L.foldr glue ""

/-- Concatenation of a list of strings, each preceded by one space. -/
def sepcat : List String → String
  | [] => ""
  | b :: l => " " ++ b ++ sepcat l

/-- The stripped non-empty lines of a line list, in order: exactly the lines
the loop of `parse_records` does not skip. -/
def cleanList (L : List String) : List String :=
  (L.map pyStrip).filter (fun l => l != "")

/-- The stripped non-empty lines of an input text. -/
def cleanLines (text : String) : List String :=
  cleanList (splitLines text)

/-! ### Concrete sample data for closed evaluations -/

/-- A fully populated parsed record (phone present). -/
def samplePhoneRec : PRecord :=
  { name := some "Jane Doe", address := some "1 High St",
    phone := some "(01202) 525072", page := none,
    raw_text := some "Jane Doe, 1 High St (01202) 525072" }

/-- A parsed record whose blob carried no phone number, as the Field
Extractor produces for a no-boundary tail blob; the phone field is absent
and is stored as SQL NULL. -/
def sampleNullPhoneRec : PRecord :=
  { name := some "John Roe", address := some "2 Low St",
    phone := none, page := none,
    raw_text := some "John Roe, 2 Low St" }

end BT


namespace BT

/-! ### String and glue algebra -/

theorem str_append_eq_empty {a b : String} : a ++ b = "" ↔ a = "" ∧ b = "" := by
  constructor
  · intro h
    have hd : (a ++ b).data = [] := by rw [h]
    rw [String.data_append] at hd
    rcases List.append_eq_nil.mp hd with ⟨h1, h2⟩
    exact ⟨congrArg String.mk h1, congrArg String.mk h2⟩
  · rintro ⟨rfl, rfl⟩
    rfl

theorem str_append_ne_empty (a b : String) (h : a ≠ "") : a ++ b ≠ "" :=
  fun hc => h (str_append_eq_empty.mp hc).1

theorem glue_empty_left (b : String) : glue "" b = b := rfl

theorem glue_empty_right (a : String) : glue a "" = a := by
  by_cases h : a = "" <;> simp [glue, h]

theorem glue_ne_empty_left (a b : String) (h : a ≠ "") : glue a b ≠ "" := by
  by_cases hb : b = ""
  · simp [glue, h, hb]
  · simp only [glue, if_neg h, if_neg hb]
    exact str_append_ne_empty _ _ (str_append_ne_empty _ _ h)

theorem glue_ne_empty_right (a b : String) (h : b ≠ "") : glue a b ≠ "" := by
  by_cases ha : a = ""
  · simpa [glue, ha] using h
  · exact glue_ne_empty_left a b ha

theorem glue_assoc (a b c : String) : glue (glue a b) c = glue a (glue b c) := by
  by_cases ha : a = ""
  · rw [ha, glue_empty_left, glue_empty_left]
  · by_cases hb : b = ""
    · rw [hb, glue_empty_right, glue_empty_left]
    · by_cases hc : c = ""
      · rw [hc, glue_empty_right, glue_empty_right]
      · have hab : glue a b = a ++ " " ++ b := by simp [glue, ha, hb]
        have hbc : glue b c = b ++ " " ++ c := by simp [glue, hb, hc]
        have hab' : a ++ " " ++ b ≠ "" := hab ▸ glue_ne_empty_left a b ha
        have hbc' : b ++ " " ++ c ≠ "" := hbc ▸ glue_ne_empty_left b c hb
        rw [hab, hbc]
        simp only [glue, if_neg hab', if_neg hc, if_neg ha, if_neg hbc']
        simp [String.append_assoc]

theorem glueAll_cons (a : String) (L : List String) :
    glueAll (a :: L) = glue a (glueAll L) := rfl

theorem glueAll_append_single (L : List String) (x : String) :
    glueAll (L ++ [x]) = glue (glueAll L) x := by
  induction L with
  | nil => simp [glueAll, glue_empty_right, glue_empty_left]
  | cons a t ih =>
    show glue a (glueAll (t ++ [x])) = glue (glue a (glueAll t)) x
    rw [ih, glue_assoc]

theorem glueAll_ne_empty (L : List String) (hL : L ≠ []) (h : ∀ b ∈ L, b ≠ "") :
    glueAll L ≠ "" := by
  cases L with
  | nil => exact absurd rfl hL
  | cons a t => exact glue_ne_empty_left a _ (h a (List.mem_cons_self a t))

theorem intercalate_go_eq (l : List String) :
    ∀ acc : String, String.intercalate.go acc " " l = acc ++ sepcat l := by
  induction l with
  | nil => intro acc; simp [String.intercalate.go, sepcat, String.append_empty]
  | cons b t ih =>
    intro acc
    show String.intercalate.go (acc ++ " " ++ b) " " t = acc ++ (" " ++ b ++ sepcat t)
    rw [ih]
    simp [String.append_assoc]

theorem append_sepcat_eq_glue (t : List String) :
    (∀ b ∈ t, b ≠ "") → ∀ a : String, a ≠ "" → a ++ sepcat t = glue a (glueAll t) := by
  induction t with
  | nil =>
    intro _ a ha
    show a ++ "" = glue a ""
    rw [String.append_empty, glue_empty_right]
  | cons b t ih =>
    intro ht a ha
    have hb : b ≠ "" := ht b (List.mem_cons_self b t)
    have ht' : ∀ x ∈ t, x ≠ "" := fun x hx => ht x (List.mem_cons_of_mem b hx)
    show a ++ (" " ++ b ++ sepcat t) = glue a (glue b (glueAll t))
    rw [← ih ht' b hb]
    have hbs : b ++ sepcat t ≠ "" := str_append_ne_empty _ _ hb
    simp only [glue, if_neg ha, if_neg hbs]
    simp [String.append_assoc]

theorem intercalate_eq_glueAll (l : List String) (h : ∀ b ∈ l, b ≠ "") :
    String.intercalate " " l = glueAll l := by
  cases l with
  | nil => rfl
  | cons a t =>
    have h1 : String.intercalate " " (a :: t) = String.intercalate.go a " " t := rfl
    have ha : a ≠ "" := h a (List.mem_cons_self a t)
    have ht : ∀ b ∈ t, b ≠ "" := fun b hb => h b (List.mem_cons_of_mem a hb)
    rw [h1, intercalate_go_eq, append_sepcat_eq_glue t ht a ha, glueAll_cons]

theorem cleanList_ne_empty (L : List String) : ∀ b ∈ cleanList L, b ≠ "" := by
  intro b hb
  exact bne_iff_ne.mp (List.mem_filter.mp hb).2

end BT

namespace BT

/-! ### The segmentation invariant -/

/-- Invariant of the line loop of `parse_records`: folding `stepLine` over any
line list preserves non-emptiness of the emitted blobs, and the glue-join of
(emitted blobs, accumulator) grows by exactly the glue-join of the stripped
non-empty lines consumed. -/
theorem stepLine_fold_invariant (L : List String) :
    ∀ recs cur, (∀ b ∈ recs, b ≠ "") →
      (∀ b ∈ (L.foldl stepLine (recs, cur)).1, b ≠ "") ∧
      glue (glueAll (L.foldl stepLine (recs, cur)).1) (L.foldl stepLine (recs, cur)).2 =
        glue (glue (glueAll recs) cur) (glueAll (cleanList L)) := by
  induction L with
  | nil =>
    intro recs cur h
    refine ⟨h, ?_⟩
    show glue (glueAll recs) cur = glue (glue (glueAll recs) cur) (glueAll (cleanList []))
    rw [show cleanList [] = [] from rfl, show glueAll [] = "" from rfl, glue_empty_right]
  | cons raw L ih =>
    intro recs cur h
    by_cases hl : pyStrip raw = ""
    · have hstep : stepLine (recs, cur) raw = (recs, cur) := by
        simp [stepLine, hl]
      have hclean : cleanList (raw :: L) = cleanList L := by
        simp [cleanList, hl]
      rw [List.foldl_cons, hstep, hclean]
      exact ih recs cur h
    · have hclean : cleanList (raw :: L) = pyStrip raw :: cleanList L := by
        simp [cleanList, hl]
      have hcur : (if cur = "" then pyStrip raw else cur ++ " " ++ pyStrip raw) =
          glue cur (pyStrip raw) := by
        simp [glue, hl]
      by_cases hp : containsPhone (pyStrip raw) = true
      · have hstep : stepLine (recs, cur) raw = (recs ++ [glue cur (pyStrip raw)], "") := by
          rw [← hcur]
          simp [stepLine, hl, hp]
        have hne : ∀ b ∈ recs ++ [glue cur (pyStrip raw)], b ≠ "" := by
          intro b hb
          rcases List.mem_append.mp hb with h1 | h2
          · exact h b h1
          · rw [List.mem_singleton.mp h2]
            exact glue_ne_empty_right cur _ hl
        obtain ⟨ih1, ih2⟩ := ih (recs ++ [glue cur (pyStrip raw)]) "" hne
        rw [List.foldl_cons, hstep, hclean]
        refine ⟨ih1, ?_⟩
        rw [ih2, glue_empty_right, glueAll_append_single, glueAll_cons]
        simp only [glue_assoc]
      · have hstep : stepLine (recs, cur) raw = (recs, glue cur (pyStrip raw)) := by
          rw [← hcur]
          simp [stepLine, hl, hp]
        obtain ⟨ih1, ih2⟩ := ih recs (glue cur (pyStrip raw)) h
        rw [List.foldl_cons, hstep, hclean]
        refine ⟨ih1, ?_⟩
        rw [ih2, glueAll_cons]
        simp only [glue_assoc]

end BT

namespace BT

/-! ### Claim theorems -/

/-- Claim C1 (code bug), evaluated at the failing input: with the row for
`samplePhoneRec` already stored, upserting the same one-record batch leaves
the table unchanged — zero records newly inserted — yet `upsert_records`
returns 1, the length of the `values` batch, and that is what `build_index`
accumulates as the inserted count. -/
theorem c1_upsert_count_includes_duplicates :
    upsert_records [toValue "u" samplePhoneRec] [samplePhoneRec] "u" =
      ([toValue "u" samplePhoneRec], 1) := by decide

/-- Claim C2 (code bug), evaluated at the failing input: ingesting the same
one-document source list twice yields the same stored table, but the second
run's inserted count is 1 (the parsed batch length), not 0. -/
theorem c2_second_run_count_not_zero :
    (build_index (fun _ => Except.ok [samplePhoneRec])
        (build_index (fun _ => Except.ok [samplePhoneRec]) [] ["u"]).1 ["u"]).1 =
      (build_index (fun _ => Except.ok [samplePhoneRec]) [] ["u"]).1 ∧
    (build_index (fun _ => Except.ok [samplePhoneRec])
        (build_index (fun _ => Except.ok [samplePhoneRec]) [] ["u"]).1 ["u"]).2 = 1 := by
  decide

/-- Claim C3, counterexample: the boundary regex of src/parser.py is
parenthesized-only. A line consisting of the bare groups 0207 1234567 does
not match it, so it does not end the current blob: the whole four-line input
comes out as a single blob, closed only at the parenthesized phone line. -/
theorem c3_counterexample_bare_number_line :
    containsPhone "0207 1234567" = false ∧
    parse_records "Jane Doe, 1 High St\n0207 1234567\nJohn Roe, 2 Low St\n(01202) 525072" =
      ["Jane Doe, 1 High St 0207 1234567 John Roe, 2 Low St (01202) 525072"] := by
  decide

/-- Claim C3 (amended): for every non-blank input line, the Segmenter treats
the line as a record boundary (leaves an empty accumulator) iff the stripped
line contains a parenthesized digit group followed by optional whitespace and
a digit group; bare area-code groups are not boundaries. -/
theorem c3_boundary_requires_parentheses (recs : List String) (cur raw : String)
    (h : pyStrip raw ≠ "") :
    ((stepLine (recs, cur) raw).2 = "") ↔ containsPhone (pyStrip raw) = true := by
  by_cases hp : containsPhone (pyStrip raw) = true
  · constructor
    · intro _
      exact hp
    · intro _
      simp [stepLine, h, hp]
  · have hcur2 : (stepLine (recs, cur) raw).2 =
        (if cur = "" then pyStrip raw else cur ++ " " ++ pyStrip raw) := by
      simp [stepLine, h, hp]
    have hne : (if cur = "" then pyStrip raw else cur ++ " " ++ pyStrip raw) ≠ "" := by
      by_cases hc : cur = ""
      · simpa [hc] using h
      · simp only [if_neg hc]
        exact str_append_ne_empty _ _ (str_append_ne_empty _ _ hc)
    rw [hcur2]
    simp [hne, hp]

/-- Witness for the amended claim C3 at a concrete boundary line. -/
theorem c3_boundary_requires_parentheses_witness :
    pyStrip " (01202) 525072 " ≠ "" ∧
    (((stepLine ([], "Jane") " (01202) 525072 ").2 = "") ↔
      containsPhone (pyStrip " (01202) 525072 ") = true) :=
  ⟨by decide, c3_boundary_requires_parentheses [] "Jane" " (01202) 525072 " (by decide)⟩

/-- Claim C4: on the given four-line text, `parse_records` returns exactly two
blobs; the first is the Jane Doe name, address and phone, the second the John
Roe name, address and phone. -/
theorem c4_two_blobs_example :
    parse_records "Jane Doe, 1 High St\n(01202) 525072\nJohn Roe, 2 Low St\n0207 1234567" =
      ["Jane Doe, 1 High St (01202) 525072", "John Roe, 2 Low St 0207 1234567"] := by
  decide

end BT

namespace BT

/-- Claim C5, counterexample: the scraper applies no host filter. A discovered
link to a host outside the site (here evil.example, while the page host is
www.bt.com) is collected anyway because its path ends in `.pdf`. -/
theorem c5_counterexample_offsite_pdf_collected :
    extract_pdf_links "https://www.bt.com/help/the-phone-book/a-z-directory-finder"
        ["https://evil.example/phonebook.pdf"] = ["https://evil.example/phonebook.pdf"] ∧
    hostOf "https://evil.example/phonebook.pdf" = "evil.example" ∧
    hostOf "https://www.bt.com/help/the-phone-book/a-z-directory-finder" = "www.bt.com" := by
  decide

/-- Claim C5 (amended): every discovered href ending in `.pdf`
(case-insensitively) is added to the collected document list, resolved against
the page URL, regardless of its host; the code has no `allowedHosts` boundary
and no crawl frontier to enqueue into. -/
theorem c5_pdf_links_host_blind (pageUrl href : String) (hrefs : List String)
    (h1 : href ∈ hrefs) (h2 : endsWithPdf href = true) :
    urljoin pageUrl href ∈ extract_pdf_links pageUrl hrefs :=
  List.mem_map_of_mem _ (List.mem_filter.mpr ⟨h1, h2⟩)

/-- Witness for the amended claim C5 at a concrete off-site link. -/
theorem c5_pdf_links_host_blind_witness :
    "https://elsewhere.example/a.pdf" ∈ ["https://elsewhere.example/a.pdf"] ∧
    endsWithPdf "https://elsewhere.example/a.pdf" = true ∧
    urljoin "https://www.bt.com/help" "https://elsewhere.example/a.pdf" ∈
      extract_pdf_links "https://www.bt.com/help" ["https://elsewhere.example/a.pdf"] :=
  ⟨by decide, by decide,
    c5_pdf_links_host_blind "https://www.bt.com/help" "https://elsewhere.example/a.pdf"
      ["https://elsewhere.example/a.pdf"] (by decide) (by decide)⟩

/-- Claim C6 (code bug), evaluated at the failing input: re-upserting a record
identical to a stored one is silently absorbed when the phone is present
(second conjunct), but a record with an absent (NULL) phone never conflicts
under the Postgres unique index, so re-inserting the identical tuple adds a
second copy of the row instead of being a no-op (first conjunct). -/
theorem c6_null_phone_duplicate_not_noop :
    (upsert_records (upsert_records [] [sampleNullPhoneRec] "u").1 [sampleNullPhoneRec] "u").1 =
      [toValue "u" sampleNullPhoneRec, toValue "u" sampleNullPhoneRec] ∧
    (upsert_records (upsert_records [] [samplePhoneRec] "u").1 [samplePhoneRec] "u").1 =
      (upsert_records [] [samplePhoneRec] "u").1 := by
  decide

/-- Claim C7: an exception inside the per-document body of `build_index`
(fetch, parse or upsert, modelled by `fetchParse` returning an error) leaves
that document without effect and the loop continues with the remaining URLs:
the run over any list containing the failing URL equals the run over the list
with that URL removed. -/
theorem c7_failed_document_skipped (fetchParse : String → Except String (List PRecord))
    (store : List Row) (xs ys : List String) (u e : String)
    (h : fetchParse u = Except.error e) :
    build_index fetchParse store (xs ++ u :: ys) = build_index fetchParse store (xs ++ ys) := by
  simp [build_index, List.foldl_append, List.foldl_cons, buildStep, h]

/-- Witness for claim C7 at a concrete failing document. -/
theorem c7_failed_document_skipped_witness :
    (fun u => if u = "bad" then (Except.error "boom" : Except String (List PRecord))
      else Except.ok [samplePhoneRec]) "bad" = Except.error "boom" ∧
    build_index (fun u => if u = "bad" then Except.error "boom" else Except.ok [samplePhoneRec])
        [] (["a"] ++ "bad" :: ["b"]) =
      build_index (fun u => if u = "bad" then Except.error "boom" else Except.ok [samplePhoneRec])
        [] (["a"] ++ ["b"]) :=
  ⟨rfl,
    c7_failed_document_skipped
      (fun u => if u = "bad" then Except.error "boom" else Except.ok [samplePhoneRec])
      [] ["a"] ["b"] "bad" "boom" rfl⟩

/-- Claim C8: when the stripped query is empty (empty or whitespace-only `q`),
the handler answers with no rows and without querying the store. -/
theorem c8_empty_query_returns_empty (runQuery : String → List Row) (q : String)
    (h : pyStrip q = "") :
    appSearch runQuery q = ([], false) := by
  simp [appSearch, h]

/-- Witness for claim C8 on a whitespace-only query, against a store query
that would return a row. -/
theorem c8_empty_query_returns_empty_witness :
    pyStrip "   \t " = "" ∧
    appSearch (fun t => [toValue t sampleNullPhoneRec]) "   \t " = ([], false) :=
  ⟨by decide, c8_empty_query_returns_empty (fun t => [toValue t sampleNullPhoneRec]) "   \t " (by decide)⟩

/-- Claim C9: whenever the line loop finishes with a non-empty accumulator
(trailing lines with no boundary match), `parse_records` appends that
accumulated text as one final blob — trailing text is never dropped. -/
theorem c9_trailing_blob_emitted (text : String) (h : (processLines text).2 ≠ "") :
    parse_records text = (processLines text).1 ++ [(processLines text).2] := by
  simp [parse_records, h]

/-- Witness for claim C9 on a text with no phone line at all. -/
theorem c9_trailing_blob_emitted_witness :
    (processLines "John Roe, 2 Low St").2 ≠ "" ∧
    parse_records "John Roe, 2 Low St" =
      (processLines "John Roe, 2 Low St").1 ++ [(processLines "John Roe, 2 Low St").2] :=
  ⟨by decide, c9_trailing_blob_emitted "John Roe, 2 Low St" (by decide)⟩

/-- Claim C10: segmentation loses and duplicates no text — the blobs returned
by `parse_records`, joined with single spaces, equal the stripped non-empty
input lines joined with single spaces; and every returned blob is non-empty. -/
theorem c10_segmentation_conserves_text (text : String) :
    String.intercalate " " (parse_records text) =
      String.intercalate " " (cleanLines text) ∧
    ∀ b ∈ parse_records text, b ≠ "" := by
  obtain ⟨h1, h2⟩ := stepLine_fold_invariant (splitLines text) [] ""
    (fun b hb => absurd hb (List.not_mem_nil b))
  have h2' : glue (glueAll (processLines text).1) (processLines text).2 =
      glueAll (cleanLines text) := h2
  have hN : ∀ b ∈ parse_records text, b ≠ "" := by
    intro b hb
    by_cases hc : (processLines text).2 = ""
    · have hpr : parse_records text = (processLines text).1 := by
        simp [parse_records, hc]
      rw [hpr] at hb
      exact h1 b hb
    · have hpr : parse_records text = (processLines text).1 ++ [(processLines text).2] := by
        simp [parse_records, hc]
      rw [hpr] at hb
      rcases List.mem_append.mp hb with hx | hx
      · exact h1 b hx
      · rw [List.mem_singleton.mp hx]
        exact hc
  have hG : glueAll (parse_records text) = glueAll (cleanLines text) := by
    by_cases hc : (processLines text).2 = ""
    · have hpr : parse_records text = (processLines text).1 := by
        simp [parse_records, hc]
      rw [hpr, ← h2', hc, glue_empty_right]
    · have hpr : parse_records text = (processLines text).1 ++ [(processLines text).2] := by
        simp [parse_records, hc]
      rw [hpr, glueAll_append_single, h2']
  refine ⟨?_, hN⟩
  rw [intercalate_eq_glueAll _ hN,
    intercalate_eq_glueAll (cleanLines text) (cleanList_ne_empty (splitLines text)), hG]

end BT
